import Mathlib

/-!
Shallow embedding of the k8s-healer remediation controller and proofs about it.

The embedding covers:
* the health classifier (`IsUnhealthy`, `GetHealReason` in pkg/util),
* the remediation engine with its cooldown ledger
  (`checkAndHealPod`, `startHealCacheCleaner`, `triggerPodDeletion` in pkg/healer),
* wildcard namespace resolution and the all-namespaces default
  (`resolveWildcardNamespaces` in cmd/main.go, `Watch` in pkg/healer).

Timestamps and durations are modelled as integers (`time.Time` differences and
`time.Duration` are both integer nanosecond counts in Go).  Go maps are
modelled as association lists with unique keys; map iteration plus conditional
delete becomes `List.filter`, and the engine additionally produces an explicit
event trace so that the order of the cooldown query, the classification, the
delete call and the ledger write can be reasoned about.
-/

/-- Container status snapshot.  `waitingReason` is `some r` when the Go field
`status.State.Waiting` is a non-nil pointer whose `Reason` is `r`, and `none`
when the pointer is nil.  `restartCount` models the non-negative
`status.RestartCount`. -/
structure ContainerStatus where
  waitingReason : Option String
  restartCount : Nat
deriving DecidableEq

/-- Pod observation, the slice of `v1.Pod` that the healer reads:
`pod.Namespace`, `pod.Name`, `pod.OwnerReferences` (only its length is ever
inspected, so the elements are units), and `pod.Status.ContainerStatuses`. -/
structure Pod where
  ns : String
  name : String
  ownerReferences : List Unit
  containerStatuses : List ContainerStatus
deriving DecidableEq

/-- Constant `DefaultRestartThreshold = 3` from pkg/util. -/
def DefaultRestartThreshold : Nat := 3

/-- Loop body of `IsUnhealthy`: scan the container statuses and return true at
the first status whose waiting reason is the literal CrashLoopBackOff and whose
restart count has reached the threshold. -/
def isUnhealthyAux : List ContainerStatus → Bool
  | [] => false
  | status :: rest =>
    if status.waitingReason = some "CrashLoopBackOff" then
      if DefaultRestartThreshold ≤ status.restartCount then true
      else isUnhealthyAux rest
    else isUnhealthyAux rest

/-- Embedding of `util.IsUnhealthy`. -/
def IsUnhealthy (pod : Pod) : Bool :=
  isUnhealthyAux pod.containerStatuses

/-- Loop body of `GetHealReason`: the first qualifying container status yields
the formatted reason, otherwise the fallback string is returned. -/
def getHealReasonAux : List ContainerStatus → String
  | [] => "Unspecified Failure"
  | status :: rest =>
    if status.waitingReason = some "CrashLoopBackOff" then
      if DefaultRestartThreshold ≤ status.restartCount then
        "Persistent CrashLoopBackOff (Restarts: " ++ toString status.restartCount ++ ")"
      else getHealReasonAux rest
    else getHealReasonAux rest

/-- Embedding of `util.GetHealReason`. -/
def GetHealReason (pod : Pod) : String :=
  getHealReasonAux pod.containerStatuses

/-- The qualification test shared by both classifier loops, as a boolean
predicate on one container status. -/
def crashLoopQualifies (status : ContainerStatus) : Bool :=
  decide (status.waitingReason = some "CrashLoopBackOff") &&
    decide (DefaultRestartThreshold ≤ status.restartCount)

/-- Pod identity key, `fmt.Sprintf("%s/%s", pod.Namespace, pod.Name)`. -/
def podKey (pod : Pod) : String :=
  pod.ns ++ "/" ++ pod.name

/-- Lookup in the `HealedPods` map (association list with unique keys). -/
def lookupTime : List (String × Int) → String → Option Int
  | [], _ => none
  | (k, t) :: rest, key => if k = key then some t else lookupTime rest key

/-- Map write `h.HealedPods[key] = now`: replace the binding for `key` if one
exists, otherwise add it. -/
def recordHeal : List (String × Int) → String → Int → List (String × Int)
  | [], key, now => [(key, now)]
  | (k, t) :: rest, key, now =>
    if k = key then (k, now) :: rest else (k, t) :: recordHeal rest key now

/-- The mutable state of the `Healer` that the claims are about: the
`HealedPods` cooldown map and the `HealCooldown` duration.  The Kubernetes
client, the namespace list and the stop channel are not needed here. -/
structure HealerState where
  healedPods : List (String × Int)
  healCooldown : Int
deriving DecidableEq

/-- Outcome of the external cluster API delete primitive, the three cases of
the interface `deletePod -> success | notFound | error`. -/
inductive DeleteResult
  | success
  | notFound
  | otherError
deriving DecidableEq

/-- Error value returned by the Kubernetes client for each delete outcome:
the client returns a nil error only on success; deleting a Pod that no longer
exists yields a non-nil NotFound (HTTP 404) status error. -/
def deleteCallError : DeleteResult → Option String
  | DeleteResult.success => none
  | DeleteResult.notFound => some "pods not found"
  | DeleteResult.otherError => some "server error"

/-- Embedding of the error handling in `triggerPodDeletion`: the FAIL log line
is emitted exactly when the returned error is non-nil (`if err != nil`).
The function has no other observable effect on the engine. -/
def triggerPodDeletionLogsFailure (result : DeleteResult) : Bool :=
  (deleteCallError result).isSome

/-- Observable steps of one `checkAndHealPod` invocation, in the order the
source performs them: the `HealedPods` cooldown lookup, the `IsUnhealthy`
classification, the delete call (tagged with its outcome), and the
`HealedPods` write. -/
inductive Event
  | cooldownQueried
  | classified
  | deleteIssued (result : DeleteResult)
  | recorded
deriving DecidableEq

/-- Whether an event is a delete call. -/
def isDeleteEvent : Event → Bool
  | Event.deleteIssued _ => true
  | _ => false

/-- Whether a trace contains a delete call. -/
def deleteIssuedIn (trace : List Event) : Bool :=
  trace.any isDeleteEvent

/-- Whether a trace contains a ledger write. -/
def recordedIn (trace : List Event) : Bool :=
  trace.any (fun e => decide (e = Event.recorded))

/-- Tail of `checkAndHealPod` after the cooldown check has not skipped
(source lines: the `util.IsUnhealthy` test, the `triggerPodDeletion` call and
the unconditional `h.HealedPods[podKey] = time.Now()` write).  The delete
outcome `result` is supplied by the environment; the source never inspects
it here. -/
def healUnhealthyPod (h : HealerState) (pod : Pod) (now : Int) (result : DeleteResult) :
    HealerState × List Event :=
  if IsUnhealthy pod then
    ({ h with healedPods := recordHeal h.healedPods (podKey pod) now },
      [Event.cooldownQueried, Event.classified, Event.deleteIssued result, Event.recorded])
  else
    (h, [Event.cooldownQueried, Event.classified])

/-- Embedding of `checkAndHealPod`: return for unmanaged Pods, then the
cooldown lookup and skip test, then classification and the heal action. -/
def checkAndHealPod (h : HealerState) (pod : Pod) (now : Int) (result : DeleteResult) :
    HealerState × List Event :=
  if pod.ownerReferences.length = 0 then (h, [])
  else
    match lookupTime h.healedPods (podKey pod) with
    | some lastHeal =>
      if now - lastHeal < h.healCooldown then (h, [Event.cooldownQueried])
      else healUnhealthyPod h pod now result
    | none => healUnhealthyPod h pod now result

/-- The cooldown skip decision of lines 118-124 of the engine as a standalone
predicate: skip exactly when an entry exists and is younger than the cooldown
window. -/
def shouldSkip (h : HealerState) (key : String) (now : Int) : Bool :=
  match lookupTime h.healedPods key with
  | some lastHeal => decide (now - lastHeal < h.healCooldown)
  | none => false

/-- One tick of the `startHealCacheCleaner` loop: range over `HealedPods` and
delete every entry with `now.Sub(t) > 2*h.HealCooldown`. -/
def sweepHealedPods (h : HealerState) (now : Int) : HealerState :=
  { h with healedPods :=
      h.healedPods.filter (fun entry => !decide (now - entry.2 > 2 * h.healCooldown)) }

/-- Progress of one goroutine through the cooldown check-then-record sequence
of `checkAndHealPod` for an unhealthy owned Pod.  `checked b` records that the
goroutine performed the `HealedPods` read and observed skip decision `b`;
`done b` records that it finished (having written the map exactly when it
observed `b = false`). -/
inductive CallerPhase
  | start
  | checked (observedSkip : Bool)
  | done (observedSkip : Bool)
deriving DecidableEq

/-- Shared-memory state of two goroutines racing through `checkAndHealPod` for
the same Pod key: the shared `HealedPods` map and each caller's phase.  The
source guards the map with no mutex, so the read (the cooldown test) and the
write (the heal record) of the two invocations interleave freely; each phase
transition below is one of those primitive map accesses. -/
structure RaceState where
  store : List (String × Int)
  caller0 : CallerPhase
  caller1 : CallerPhase
deriving DecidableEq

/-- One atomic step of a single caller: its map read (the cooldown skip test)
if it has not read yet, otherwise its map write (the heal record) when it
observed no skip, otherwise nothing. -/
def raceCallerStep (store : List (String × Int)) (phase : CallerPhase)
    (key : String) (now cooldown : Int) : List (String × Int) × CallerPhase :=
  match phase with
  | CallerPhase.start =>
    (store, CallerPhase.checked (shouldSkip ⟨store, cooldown⟩ key now))
  | CallerPhase.checked false => (recordHeal store key now, CallerPhase.done false)
  | CallerPhase.checked true => (store, CallerPhase.done true)
  | CallerPhase.done b => (store, CallerPhase.done b)

/-- Scheduler step: run one atomic action of caller 0 (`i = false`) or
caller 1 (`i = true`). -/
def raceStep (s : RaceState) (i : Bool) (key : String) (now cooldown : Int) : RaceState :=
  if i then
    let next := raceCallerStep s.store s.caller1 key now cooldown
    { s with store := next.1, caller1 := next.2 }
  else
    let next := raceCallerStep s.store s.caller0 key now cooldown
    { s with store := next.1, caller0 := next.2 }

/-- Run an interleaving of the two callers given by a schedule. -/
def runRace (schedule : List Bool) (s : RaceState) (key : String) (now cooldown : Int) :
    RaceState :=
  schedule.foldl (fun acc i => raceStep acc i key now cooldown) s

/-- Go `unicode.IsSpace`, the full Unicode White_Space set that
`strings.TrimSpace` removes: tab through carriage return (0x09-0x0D), space,
NEL (0x85), no-break space (0xA0), ogham space mark (0x1680), the en-quad
through hair-space block (0x2000-0x200A), line and paragraph separators
(0x2028, 0x2029), narrow no-break space (0x202F), medium mathematical space
(0x205F) and ideographic space (0x3000). -/
def isGoSpace (c : Char) : Bool :=
  let n := c.toNat
  n = 0x20 || (0x9 ≤ n && n ≤ 0xD) || n = 0x85 || n = 0xA0 ||
    n = 0x1680 || (0x2000 ≤ n && n ≤ 0x200A) ||
    n = 0x2028 || n = 0x2029 || n = 0x202F || n = 0x205F || n = 0x3000

/-- Trim whitespace from both ends, modelling `strings.TrimSpace`. -/
def trimSpace (s : List Char) : List Char :=
  ((s.dropWhile isGoSpace).reverse.dropWhile isGoSpace).reverse

/-- Split at commas, modelling `strings.Split(input, ",")`. -/
def splitOnComma : List Char → List (List Char)
  | [] => [[]]
  | c :: rest =>
    match splitOnComma rest with
    | [] => [[c]]
    | group :: groups =>
      if c = ',' then [] :: group :: groups else (c :: group) :: groups

/-- Whether a pattern contains a wildcard, `strings.Contains(p, "*")`. -/
def containsStar (s : List Char) : Bool :=
  s.contains '*'

/-- Result of `matchChunk` in `path/filepath`: the chunk is syntactically bad
(`ErrBadPattern`), fails to match at the head of the name, or matches and
leaves a remainder of the name. -/
inductive ChunkResult
  | badPattern
  | noMatch
  | matched (rest : List Char)
deriving DecidableEq

/-- Leading-star consumption at the top of `scanChunk`: drop every leading
`*` and record whether there was at least one. -/
def dropStars : List Char → Bool × List Char
  | [] => (false, [])
  | '*' :: rest => (true, (dropStars rest).2)
  | c :: rest => (false, c :: rest)

/-- Scan loop of `scanChunk`: cut the pattern at the next top-level `*`,
tracking whether the position is inside a `[...]` class (where `*` is
literal) and keeping a `\` together with the character it escapes. -/
def scanChunkAux : Bool → List Char → List Char × List Char
  | _, [] => ([], [])
  | inrange, '\\' :: d :: rest =>
    let next := scanChunkAux inrange rest
    ('\\' :: d :: next.1, next.2)
  | _, ['\\'] => (['\\'], [])
  | _, '[' :: rest =>
    let next := scanChunkAux true rest
    ('[' :: next.1, next.2)
  | _, ']' :: rest =>
    let next := scanChunkAux false rest
    (']' :: next.1, next.2)
  | inrange, '*' :: rest =>
    if inrange then
      let next := scanChunkAux inrange rest
      ('*' :: next.1, next.2)
    else ([], '*' :: rest)
  | inrange, c :: rest =>
    let next := scanChunkAux inrange rest
    (c :: next.1, next.2)

/-- `scanChunk(pattern)`: the next segment of the pattern, a non-star chunk
possibly preceded by stars, with the rest of the pattern. -/
def scanChunk (pattern : List Char) : Bool × List Char × List Char :=
  let stars := dropStars pattern
  let cut := scanChunkAux false stars.2
  (stars.1, cut.1, cut.2)

/-- `getEsc(chunk)`: one possibly-escaped character of a character class,
rejecting (as `ErrBadPattern`, here `none`) an empty chunk, a leading `-` or
`]`, a dangling escape, and a class that ends right after the character
(the class must still be closed by `]`). -/
def getEsc : List Char → Option (Char × List Char)
  | [] => none
  | '-' :: _ => none
  | ']' :: _ => none
  | ['\\'] => none
  | '\\' :: r :: nchunk => if nchunk = [] then none else some (r, nchunk)
  | r :: nchunk => if nchunk = [] then none else some (r, nchunk)

/-- Range-parsing loop of the `[` case of `matchChunk`: read `lo`(`-hi`)
ranges with `getEsc`, accumulating whether the rune `r` falls in some range;
a `]` closes the class only after at least one range.  The fuel strictly
exceeds the chunk length, which decreases every iteration, so it is never
exhausted. -/
def matchClassRangesFuel : Nat → List Char → Char → Bool → Nat → Option (Bool × List Char)
  | 0, _, _, _, _ => none
  | fuel + 1, chunk, r, matched, nrange =>
    match chunk with
    | ']' :: rest =>
      if 0 < nrange then some (matched, rest)
      else none
    | _ =>
      match getEsc chunk with
      | none => none
      | some (lo, chunk2) =>
        match chunk2 with
        | '-' :: chunk3 =>
          match getEsc chunk3 with
          | none => none
          | some (hi, chunk4) =>
            matchClassRangesFuel fuel chunk4 r
              (matched || (decide (lo ≤ r) && decide (r ≤ hi))) (nrange + 1)
        | _ =>
          matchClassRangesFuel fuel chunk2 r
            (matched || (decide (lo ≤ r) && decide (r ≤ lo))) (nrange + 1)

/-- Loop of `matchChunk(chunk, s)`: process the chunk against the head of
`s`; the `failed` flag keeps the syntax checks running after a mismatch,
exactly as in the source (which then no longer consumes `s`).  The fuel
strictly exceeds the chunk length, which decreases every iteration, so it is
never exhausted; the `s` empty cases inside the non-failed branches are
unreachable because the top of each iteration sets `failed` on empty `s`. -/
def matchChunkFuel : Nat → List Char → List Char → Bool → ChunkResult
  | 0, _, _, _ => ChunkResult.badPattern
  | fuel + 1, chunk, s, failed0 =>
    match chunk with
    | [] => if failed0 then ChunkResult.noMatch else ChunkResult.matched s
    | c :: chunkRest =>
      let failed := failed0 || s.isEmpty
      if c = '[' then
        let r := if failed then Char.ofNat 0 else s.headD (Char.ofNat 0)
        let s2 := if failed then s else s.tail
        let neg : Bool × List Char :=
          match chunkRest with
          | '^' :: chunk2 => (true, chunk2)
          | chunk2 => (false, chunk2)
        match matchClassRangesFuel (neg.2.length + 1) neg.2 r false 0 with
        | none => ChunkResult.badPattern
        | some (m, chunk3) => matchChunkFuel fuel chunk3 s2 (failed || (m == neg.1))
      else if c = '?' then
        if failed then matchChunkFuel fuel chunkRest s failed
        else
          match s with
          | [] => matchChunkFuel fuel chunkRest [] true
          | c0 :: srest => matchChunkFuel fuel chunkRest srest (decide (c0 = '/'))
      else if c = '\\' then
        match chunkRest with
        | [] => ChunkResult.badPattern
        | d :: chunkRest2 =>
          if failed then matchChunkFuel fuel chunkRest2 s failed
          else
            match s with
            | [] => matchChunkFuel fuel chunkRest2 [] true
            | c0 :: srest => matchChunkFuel fuel chunkRest2 srest (!decide (d = c0))
      else
        if failed then matchChunkFuel fuel chunkRest s failed
        else
          match s with
          | [] => matchChunkFuel fuel chunkRest [] true
          | c0 :: srest => matchChunkFuel fuel chunkRest srest (!decide (c = c0))

/-- `matchChunk(chunk, s)`: whether the chunk matches the beginning of `s`,
returning the remainder of `s` after the match. -/
def matchChunk (chunk s : List Char) : ChunkResult :=
  matchChunkFuel (chunk.length + 1) chunk s false

/-- Result of the star-skip scan inside `Match`: a bad pattern, no position
that matches, or the remainder of the name to hand back to the pattern loop. -/
inductive StarScan
  | badPattern
  | noMatch
  | continueWith (name : List Char)
deriving DecidableEq

/-- The star-skip loop of `Match`: retry the chunk at each later position of
the name, never stepping across a separator; on a match the remainder goes
back to the pattern loop, unless this was the last chunk and name is left
over, in which case scanning continues. -/
def starLoop (chunk : List Char) (patternEmpty : Bool) : List Char → StarScan
  | [] => StarScan.noMatch
  | c :: rest =>
    if c = '/' then StarScan.noMatch
    else
      match matchChunk chunk rest with
      | ChunkResult.badPattern => StarScan.badPattern
      | ChunkResult.matched t =>
        if patternEmpty && !t.isEmpty then starLoop chunk patternEmpty rest
        else StarScan.continueWith t
      | ChunkResult.noMatch => starLoop chunk patternEmpty rest

/-- The final loop of `Match`: before returning an ordinary mismatch, check
that the remainder of the pattern is syntactically valid by matching each
remaining chunk against the empty name.  The fuel strictly exceeds the
pattern length, which decreases every iteration, so it is never exhausted. -/
def checkRemainingPatternFuel : Nat → List Char → Option Bool
  | 0, _ => none
  | fuel + 1, pattern =>
    match pattern with
    | [] => some false
    | _ :: _ =>
      let sc := scanChunk pattern
      match matchChunkFuel (sc.2.1.length + 1) sc.2.1 [] false with
      | ChunkResult.badPattern => none
      | _ => checkRemainingPatternFuel fuel sc.2.2

/-- The pattern loop of `Match`: a trailing star matches any separator-free
remainder; otherwise the chunk is matched in place (continuing when it is not
the last chunk or consumed the whole name), then retried at later positions
when preceded by a star, and finally the rest of the pattern is
syntax-checked before returning a mismatch.  The star-retry-then-check block
appears in both mismatch branches, which converge on the source's single
block after its `continue`.  The fuel strictly exceeds the pattern length,
which decreases every iteration, so it is never exhausted. -/
def matchPatternFuel : Nat → List Char → List Char → Option Bool
  | 0, _, _ => none
  | fuel + 1, pattern, name =>
    match pattern with
    | [] => some (decide (name = []))
    | _ :: _ =>
      let sc := scanChunk pattern
      if sc.1 && sc.2.1.isEmpty then some (!name.contains '/')
      else
        match matchChunkFuel (sc.2.1.length + 1) sc.2.1 name false with
        | ChunkResult.badPattern => none
        | ChunkResult.matched t =>
          if t.isEmpty || !sc.2.2.isEmpty then matchPatternFuel fuel sc.2.2 t
          else if sc.1 then
            match starLoop sc.2.1 sc.2.2.isEmpty name with
            | StarScan.continueWith t2 => matchPatternFuel fuel sc.2.2 t2
            | StarScan.badPattern => none
            | StarScan.noMatch => checkRemainingPatternFuel (sc.2.2.length + 1) sc.2.2
          else checkRemainingPatternFuel (sc.2.2.length + 1) sc.2.2
        | ChunkResult.noMatch =>
          if sc.1 then
            match starLoop sc.2.1 sc.2.2.isEmpty name with
            | StarScan.continueWith t2 => matchPatternFuel fuel sc.2.2 t2
            | StarScan.badPattern => none
            | StarScan.noMatch => checkRemainingPatternFuel (sc.2.2.length + 1) sc.2.2
          else checkRemainingPatternFuel (sc.2.2.length + 1) sc.2.2

/-- Embedding of `path/filepath.Match` under unix rules (separator `/`, `\`
escapes active): `none` models a non-nil `ErrBadPattern`, `some b` a
nil-error result `b`.  The model works on runes where the source mixes bytes
and decoded runes; on well-formed UTF-8 the two agree (byte equality of
encodings coincides with rune equality, and the separator is one byte). -/
def filepathMatch (pattern name : List Char) : Option Bool :=
  matchPatternFuel (pattern.length + 1) pattern name

/-- The sentinel `metav1.NamespaceAll`, the empty string. -/
def NamespaceAll : String := ""

/-- The trimmed comma-separated patterns extracted from the namespaces flag
value (lines of `resolveWildcardNamespaces` before the wildcard test). -/
def resolvePatterns (namespacesInput : String) : List (List Char) :=
  (splitOnComma namespacesInput.data).map trimSpace

/-- Embedding of `resolveWildcardNamespaces`: empty input means an empty list
(watch all); without any wildcard the patterns are returned as-is; with a
wildcard, every existing namespace matching some pattern is collected through
a set (here: first-occurrence order with membership dedup, abstracting the
unspecified Go map iteration order).  A `filepath.Match` error makes the
source warn and skip that namespace-pattern pair, so the per-pair test is a
nil-error `true` result. -/
def resolveWildcardNamespaces (namespacesInput : String) (clusterNamespaces : List String) :
    List String :=
  if namespacesInput.data = [] then []
  else if !(resolvePatterns namespacesInput).any containsStar then
    (resolvePatterns namespacesInput).map String.mk
  else
    clusterNamespaces.foldl
      (fun resolved nsName =>
        if (resolvePatterns namespacesInput).any
            (fun pattern => decide (filepathMatch pattern nsName.data = some true)) then
          if nsName ∈ resolved then resolved else resolved ++ [nsName]
        else resolved)
      []

/-- Namespace defaulting at the top of `Watch`: an empty namespace list is
replaced by the all-namespaces sentinel. -/
def watchNamespaces (namespaces : List String) : List String :=
  if namespaces.length = 0 then [NamespaceAll] else namespaces

/-- Helper: the classifier loop succeeds exactly when some container status
qualifies. -/
theorem isUnhealthyAux_eq_true_iff (l : List ContainerStatus) :
    isUnhealthyAux l = true ↔
      ∃ s ∈ l, s.waitingReason = some "CrashLoopBackOff" ∧
        DefaultRestartThreshold ≤ s.restartCount := by
  induction l with
  | nil => simp [isUnhealthyAux]
  | cons s rest ih =>
    by_cases hw : s.waitingReason = some "CrashLoopBackOff"
    · by_cases hr : DefaultRestartThreshold ≤ s.restartCount
      · simp [isUnhealthyAux, hw, hr]
      · simp [isUnhealthyAux, hw, hr, ih]
    · simp [isUnhealthyAux, hw, ih]

/-- Helper: the reason loop formats the restart count of the first qualifying
container status. -/
theorem getHealReasonAux_first (l : List ContainerStatus) (s : ContainerStatus)
    (hfind : l.find? crashLoopQualifies = some s) :
    getHealReasonAux l =
      "Persistent CrashLoopBackOff (Restarts: " ++ toString s.restartCount ++ ")" := by
  induction l with
  | nil => simp [List.find?] at hfind
  | cons t rest ih =>
    by_cases hq : crashLoopQualifies t = true
    · rw [List.find?_cons_of_pos _ hq] at hfind
      obtain rfl : t = s := by simpa using hfind
      have hw : t.waitingReason = some "CrashLoopBackOff" := by
        have := hq
        simp [crashLoopQualifies, Bool.and_eq_true] at this
        exact this.1
      have hr : DefaultRestartThreshold ≤ t.restartCount := by
        have := hq
        simp [crashLoopQualifies, Bool.and_eq_true] at this
        exact this.2
      simp [getHealReasonAux, hw, hr]
    · rw [List.find?_cons_of_neg _ hq] at hfind
      have hnq : ¬(t.waitingReason = some "CrashLoopBackOff" ∧
          DefaultRestartThreshold ≤ t.restartCount) := by
        intro hc
        exact hq (by simp [crashLoopQualifies, hc.1, hc.2])
      by_cases hw : t.waitingReason = some "CrashLoopBackOff"
      · have hr : ¬DefaultRestartThreshold ≤ t.restartCount := fun hr => hnq ⟨hw, hr⟩
        simpa [getHealReasonAux, hw, hr] using ih hfind
      · simpa [getHealReasonAux, hw] using ih hfind

/-- C3: a Pod is classified unhealthy exactly when some container status has
waiting reason CrashLoopBackOff and restart count at least the threshold, and
the first qualifying container status (in iteration order) determines the
reason string with its exact restart count. -/
theorem classifier_matches_crashloop_policy (pod : Pod) :
    (IsUnhealthy pod = true ↔
      ∃ s ∈ pod.containerStatuses, s.waitingReason = some "CrashLoopBackOff" ∧
        DefaultRestartThreshold ≤ s.restartCount)
    ∧ (∀ s, pod.containerStatuses.find? crashLoopQualifies = some s →
        GetHealReason pod =
          "Persistent CrashLoopBackOff (Restarts: " ++ toString s.restartCount ++ ")") :=
  ⟨isUnhealthyAux_eq_true_iff pod.containerStatuses,
    fun s h => getHealReasonAux_first pod.containerStatuses s h⟩

/-- Witness for C3 at a concrete Pod: the second container status is the first
qualifying one, so the reason carries its restart count 5. -/
theorem classifier_matches_crashloop_policy_witness :
    IsUnhealthy ⟨"ns", "api-1", [()],
        [⟨some "ImagePullBackOff", 7⟩, ⟨some "CrashLoopBackOff", 5⟩]⟩ = true
    ∧ GetHealReason ⟨"ns", "api-1", [()],
        [⟨some "ImagePullBackOff", 7⟩, ⟨some "CrashLoopBackOff", 5⟩]⟩ =
      "Persistent CrashLoopBackOff (Restarts: 5)" :=
  ⟨(classifier_matches_crashloop_policy _).1.mpr
      ⟨⟨some "CrashLoopBackOff", 5⟩, by decide, by decide, by decide⟩,
    (classifier_matches_crashloop_policy _).2 ⟨some "CrashLoopBackOff", 5⟩ (by decide)⟩

/-- Helper: a map write makes the written timestamp visible under its key. -/
theorem lookupTime_recordHeal_self (m : List (String × Int)) (key : String) (now : Int) :
    lookupTime (recordHeal m key now) key = some now := by
  induction m with
  | nil => simp [recordHeal, lookupTime]
  | cons e rest ih =>
    obtain ⟨k, t⟩ := e
    by_cases hk : k = key
    · simp [recordHeal, hk, lookupTime]
    · simp [recordHeal, hk, lookupTime, ih]

/-- C2: the engine writes a cooldown entry exactly when it issues a delete
call, the written timestamp is the invocation time, and when no delete is
issued the ledger is untouched; the delete outcome is universally quantified,
so the entry is re-armed even when the delete call failed. -/
theorem cooldown_entry_recorded_iff_delete_issued (h : HealerState) (pod : Pod)
    (now : Int) (result : DeleteResult) :
    deleteIssuedIn (checkAndHealPod h pod now result).2 =
      recordedIn (checkAndHealPod h pod now result).2
    ∧ (deleteIssuedIn (checkAndHealPod h pod now result).2 = true →
        lookupTime (checkAndHealPod h pod now result).1.healedPods (podKey pod) = some now)
    ∧ (deleteIssuedIn (checkAndHealPod h pod now result).2 = false →
        (checkAndHealPod h pod now result).1 = h) := by
  unfold checkAndHealPod healUnhealthyPod
  split
  · simp [deleteIssuedIn, recordedIn]
  · split
    · split
      · simp [deleteIssuedIn, recordedIn, isDeleteEvent]
      · split
        · simp [deleteIssuedIn, recordedIn, isDeleteEvent, lookupTime_recordHeal_self]
        · simp [deleteIssuedIn, recordedIn, isDeleteEvent]
    · split
      · simp [deleteIssuedIn, recordedIn, isDeleteEvent, lookupTime_recordHeal_self]
      · simp [deleteIssuedIn, recordedIn, isDeleteEvent]

/-- Witness for C2: an owned CrashLoopBackOff Pod with no prior entry, and a
delete call that fails with a non-NotFound error, still gets its cooldown
entry stamped with the invocation time. -/
theorem cooldown_entry_recorded_iff_delete_issued_witness :
    deleteIssuedIn (checkAndHealPod ⟨[], 600⟩
        ⟨"ns", "api-1", [()], [⟨some "CrashLoopBackOff", 4⟩]⟩ 0 DeleteResult.otherError).2 = true
    ∧ lookupTime (checkAndHealPod ⟨[], 600⟩
        ⟨"ns", "api-1", [()], [⟨some "CrashLoopBackOff", 4⟩]⟩ 0 DeleteResult.otherError).1.healedPods
        (podKey ⟨"ns", "api-1", [()], [⟨some "CrashLoopBackOff", 4⟩]⟩) = some 0 :=
  ⟨by decide,
    (cooldown_entry_recorded_iff_delete_issued ⟨[], 600⟩
        ⟨"ns", "api-1", [()], [⟨some "CrashLoopBackOff", 4⟩]⟩ 0 DeleteResult.otherError).2.1
      (by decide)⟩

/-- C4: a Pod whose owner-reference list is empty makes the engine return
immediately with the state unchanged and an empty trace, so no delete call is
ever issued for it, regardless of its container statuses. -/
theorem unmanaged_pod_is_never_deleted (h : HealerState) (pod : Pod) (now : Int)
    (result : DeleteResult) (hown : pod.ownerReferences.length = 0) :
    checkAndHealPod h pod now result = (h, []) := by
  simp [checkAndHealPod, hown]

/-- Witness for C4: an ownerless Pod deep in CrashLoopBackOff (10 restarts) is
left alone. -/
theorem unmanaged_pod_is_never_deleted_witness :
    checkAndHealPod ⟨[], 600⟩ ⟨"ns", "worker-2", [], [⟨some "CrashLoopBackOff", 10⟩]⟩ 0
        DeleteResult.success = (⟨[], 600⟩, []) :=
  unmanaged_pod_is_never_deleted ⟨[], 600⟩
    ⟨"ns", "worker-2", [], [⟨some "CrashLoopBackOff", 10⟩]⟩ 0 DeleteResult.success (by decide)

/-- Counterexample for C5 as stated: for an owned Pod that is healthy (no
waiting reason at all) but has a fresh cooldown entry, the handler's trace is
exactly one cooldown query and no classification ever happens — so the
cooldown ledger is queried for a Pod that was never classified unhealthy,
and classification does not precede the cooldown query. -/
theorem healthy_pod_cooldown_query_without_classification :
    (checkAndHealPod ⟨[("ns/api-1", 0)], 600⟩ ⟨"ns", "api-1", [()], [⟨none, 0⟩]⟩ 30
        DeleteResult.success).2 = [Event.cooldownQueried]
    ∧ IsUnhealthy ⟨"ns", "api-1", [()], [⟨none, 0⟩]⟩ = false := by decide

/-- C5 amended: for every owned Pod the handler queries the cooldown ledger
first; when the skip decision is true it returns with only that query in the
trace, and only when the skip decision is false does the classification
follow the query. -/
theorem cooldown_query_precedes_classification (h : HealerState) (pod : Pod) (now : Int)
    (result : DeleteResult) (hown : pod.ownerReferences.length ≠ 0) :
    (checkAndHealPod h pod now result).2.head? = some Event.cooldownQueried
    ∧ (shouldSkip h (podKey pod) now = true →
        (checkAndHealPod h pod now result).2 = [Event.cooldownQueried])
    ∧ (shouldSkip h (podKey pod) now = false →
        (checkAndHealPod h pod now result).2.take 2 =
          [Event.cooldownQueried, Event.classified]) := by
  rcases hlk : lookupTime h.healedPods (podKey pod) with _ | lastHeal
  · by_cases hu : IsUnhealthy pod = true
    · simp [checkAndHealPod, healUnhealthyPod, shouldSkip, hlk, hown, hu]
    · simp [checkAndHealPod, healUnhealthyPod, shouldSkip, hlk, hown, hu]
  · by_cases hc : now - lastHeal < h.healCooldown
    · simp [checkAndHealPod, shouldSkip, hlk, hown, hc]
    · by_cases hu : IsUnhealthy pod = true
      · simp [checkAndHealPod, healUnhealthyPod, shouldSkip, hlk, hown, hc, hu]
      · simp [checkAndHealPod, healUnhealthyPod, shouldSkip, hlk, hown, hc, hu]

/-- Witness for C5 amended: an owned unhealthy Pod with no prior entry gets a
trace starting with the cooldown query and then the classification. -/
theorem cooldown_query_precedes_classification_witness :
    (checkAndHealPod ⟨[], 600⟩ ⟨"ns", "api-1", [()], [⟨some "CrashLoopBackOff", 4⟩]⟩ 5
        DeleteResult.success).2.take 2 = [Event.cooldownQueried, Event.classified] :=
  (cooldown_query_precedes_classification ⟨[], 600⟩
      ⟨"ns", "api-1", [()], [⟨some "CrashLoopBackOff", 4⟩]⟩ 5 DeleteResult.success
      (by decide)).2.2 (by decide)

/-- C6: the skip decision is true exactly when an entry exists for the key and
its age is strictly below the cooldown window, and whenever it is true the
engine leaves the state unchanged and issues no delete call. -/
theorem shouldSkip_true_iff_within_window (h : HealerState) (pod : Pod) (now : Int)
    (result : DeleteResult) :
    (shouldSkip h (podKey pod) now = true ↔
      ∃ t, lookupTime h.healedPods (podKey pod) = some t ∧ now - t < h.healCooldown)
    ∧ (shouldSkip h (podKey pod) now = true →
        (checkAndHealPod h pod now result).1 = h
        ∧ deleteIssuedIn (checkAndHealPod h pod now result).2 = false) := by
  rcases hlk : lookupTime h.healedPods (podKey pod) with _ | lastHeal
  · simp [shouldSkip, hlk]
  · constructor
    · simp [shouldSkip, hlk]
    · intro hskip
      have hc : now - lastHeal < h.healCooldown := by
        simpa [shouldSkip, hlk] using hskip
      by_cases hown : pod.ownerReferences.length = 0
      · simp [checkAndHealPod, hown, deleteIssuedIn]
      · simp [checkAndHealPod, hown, hlk, hc, deleteIssuedIn, isDeleteEvent]

/-- Witness for C6: a Pod healed 30 time units ago with a 600-unit window is
skipped — the state is unchanged and no delete call appears in the trace. -/
theorem shouldSkip_true_iff_within_window_witness :
    (checkAndHealPod ⟨[("ns/api-1", 0)], 600⟩
        ⟨"ns", "api-1", [()], [⟨some "CrashLoopBackOff", 9⟩]⟩ 30 DeleteResult.success).1 =
      ⟨[("ns/api-1", 0)], 600⟩
    ∧ deleteIssuedIn (checkAndHealPod ⟨[("ns/api-1", 0)], 600⟩
        ⟨"ns", "api-1", [()], [⟨some "CrashLoopBackOff", 9⟩]⟩ 30 DeleteResult.success).2 = false :=
  (shouldSkip_true_iff_within_window ⟨[("ns/api-1", 0)], 600⟩
      ⟨"ns", "api-1", [()], [⟨some "CrashLoopBackOff", 9⟩]⟩ 30 DeleteResult.success).2
    (by decide)

/-- Helper: a key that is not among the map keys looks up to nothing. -/
theorem lookupTime_eq_none_of_not_mem (m : List (String × Int)) (key : String)
    (hmem : key ∉ m.map Prod.fst) : lookupTime m key = none := by
  induction m with
  | nil => simp [lookupTime]
  | cons e rest ih =>
    obtain ⟨k, t⟩ := e
    simp only [List.map_cons, List.mem_cons] at hmem
    push_neg at hmem
    have hk : ¬k = key := fun h2 => hmem.1 h2.symm
    simp [lookupTime, hk, ih hmem.2]

/-- Helper: on a map with unique keys, filtering either keeps a binding
unchanged or removes it, according to the predicate at that binding. -/
theorem lookupTime_filter_of_nodup (m : List (String × Int)) (p : String × Int → Bool)
    (key : String) (t : Int) (hnodup : (m.map Prod.fst).Nodup)
    (hlook : lookupTime m key = some t) :
    lookupTime (m.filter p) key = if p (key, t) then some t else none := by
  induction m with
  | nil => simp [lookupTime] at hlook
  | cons e rest ih =>
    obtain ⟨k, t0⟩ := e
    simp only [List.map_cons, List.nodup_cons] at hnodup
    by_cases hk : k = key
    · subst hk
      have ht : t0 = t := by simpa [lookupTime] using hlook
      subst ht
      by_cases hp : p (k, t0) = true
      · simp [List.filter_cons, hp, lookupTime]
      · have hnone : lookupTime (rest.filter p) k = none := by
          apply lookupTime_eq_none_of_not_mem
          intro hmem
          exact hnodup.1 (by
            obtain ⟨e2, he2, hfst⟩ := List.mem_map.mp hmem
            exact List.mem_map.mpr ⟨e2, (List.mem_filter.mp he2).1, hfst⟩)
        simp [List.filter_cons, hp, hnone]
    · have hrest : lookupTime rest key = some t := by simpa [lookupTime, hk] using hlook
      by_cases hp : p (k, t0) = true
      · simp [List.filter_cons, hp, lookupTime, hk, ih hnodup.2 hrest]
      · simp [List.filter_cons, hp, ih hnodup.2 hrest]

/-- Helper: one sweep preserves key uniqueness. -/
theorem sweep_preserves_nodup (h : HealerState) (now : Int)
    (hnodup : (h.healedPods.map Prod.fst).Nodup) :
    ((sweepHealedPods h now).healedPods.map Prod.fst).Nodup :=
  ((List.filter_sublist h.healedPods).map Prod.fst).nodup hnodup

/-- Helper: any sequence of sweeps, each taken at a time at which the entry's
age is still within twice the cooldown window, leaves the entry in place. -/
theorem sweep_foldl_keeps_fresh (key : String) (t : Int) (times : List Int) :
    ∀ h : HealerState, (h.healedPods.map Prod.fst).Nodup →
      lookupTime h.healedPods key = some t →
      (∀ nw ∈ times, nw - t ≤ 2 * h.healCooldown) →
      lookupTime ((times.foldl (fun s nw => sweepHealedPods s nw) h)).healedPods key =
        some t := by
  induction times with
  | nil => intro h _ hlook _; simpa using hlook
  | cons nw rest ih =>
    intro h hnodup hlook hall
    have hkeep : lookupTime (sweepHealedPods h nw).healedPods key = some t := by
      have := lookupTime_filter_of_nodup h.healedPods
        (fun entry => !decide (nw - entry.2 > 2 * h.healCooldown)) key t hnodup hlook
      have hfresh : ¬(nw - t > 2 * h.healCooldown) :=
        not_lt.mpr (hall nw (List.mem_cons_self nw rest))
      simpa [sweepHealedPods, hfresh] using this
    have hcool : (sweepHealedPods h nw).healCooldown = h.healCooldown := rfl
    simpa using ih (sweepHealedPods h nw) (sweep_preserves_nodup h nw hnodup) hkeep
      (fun nw2 hmem => by
        rw [hcool]
        exact hall nw2 (List.mem_cons_of_mem nw hmem))

/-- C7: a sweep at time `now` removes an entry exactly when its age strictly
exceeds twice the cooldown window, and an entry persists unchanged across any
number of sweeps taken while its age stays within that bound. -/
theorem sweep_removes_iff_age_exceeds_twice_window (h : HealerState) (now : Int)
    (key : String) (t : Int) (hnodup : (h.healedPods.map Prod.fst).Nodup)
    (hlook : lookupTime h.healedPods key = some t) :
    (lookupTime (sweepHealedPods h now).healedPods key = none ↔
      now - t > 2 * h.healCooldown)
    ∧ ∀ times : List Int, (∀ nw ∈ times, nw - t ≤ 2 * h.healCooldown) →
        lookupTime ((times.foldl (fun s nw => sweepHealedPods s nw) h)).healedPods key =
          some t := by
  constructor
  · have := lookupTime_filter_of_nodup h.healedPods
      (fun entry => !decide (now - entry.2 > 2 * h.healCooldown)) key t hnodup hlook
    by_cases hgt : now - t > 2 * h.healCooldown
    · simp [sweepHealedPods, hgt] at this
      simp [sweepHealedPods, this, hgt]
    · simp [sweepHealedPods, hgt] at this
      simp [sweepHealedPods, this, hgt]
  · exact fun times hall => sweep_foldl_keeps_fresh key t times h hnodup hlook hall

/-- Witness for C7: with a 600-unit window (so a 1200-unit eviction bound) a
sweep at time 1300 removes the entry of age 1300 and, across two sweeps at
times 1300 and 1250, keeps the entry of age 1200 and 1150. -/
theorem sweep_removes_iff_age_exceeds_twice_window_witness :
    lookupTime (sweepHealedPods ⟨[("a/b", 0), ("c/d", 100)], 600⟩ 1300).healedPods "a/b" = none
    ∧ lookupTime (([1300, 1250] : List Int).foldl (fun s nw => sweepHealedPods s nw)
        ⟨[("a/b", 0), ("c/d", 100)], 600⟩).healedPods "c/d" = some 100 :=
  ⟨(sweep_removes_iff_age_exceeds_twice_window ⟨[("a/b", 0), ("c/d", 100)], 600⟩ 1300 "a/b" 0
      (by decide) (by decide)).1.mpr (by decide),
    (sweep_removes_iff_age_exceeds_twice_window ⟨[("a/b", 0), ("c/d", 100)], 600⟩ 0 "c/d" 100
      (by decide) (by decide)).2 [1300, 1250] (by decide)⟩

/-- Counterexample for C8 as stated: a delete call that comes back NotFound
returns a non-nil error to `triggerPodDeletion`, whose `if err != nil` branch
reports it as a delete failure — the source has no NotFound carve-out. -/
theorem notFound_delete_logged_as_failure :
    triggerPodDeletionLogsFailure DeleteResult.notFound = true := rfl

/-- C8 amended: a NotFound delete outcome is logged as a failure exactly like
any other delete error, but the engine is otherwise indifferent to the delete
outcome — the resulting ledger state, the delete-call occurrence and the
ledger write in the trace are identical whatever the delete call returned, so
remediation proceeds (cooldown recorded, no retry) as on success. -/
theorem delete_outcome_never_changes_engine_state (h : HealerState) (pod : Pod) (now : Int)
    (result : DeleteResult) :
    triggerPodDeletionLogsFailure DeleteResult.notFound =
      triggerPodDeletionLogsFailure DeleteResult.otherError
    ∧ (checkAndHealPod h pod now result).1 = (checkAndHealPod h pod now DeleteResult.success).1
    ∧ deleteIssuedIn (checkAndHealPod h pod now result).2 =
        deleteIssuedIn (checkAndHealPod h pod now DeleteResult.success).2
    ∧ recordedIn (checkAndHealPod h pod now result).2 =
        recordedIn (checkAndHealPod h pod now DeleteResult.success).2 := by
  refine ⟨rfl, ?_⟩
  unfold checkAndHealPod healUnhealthyPod
  split
  · simp
  · split
    · split
      · simp
      · split <;> simp [deleteIssuedIn, recordedIn, isDeleteEvent]
    · split <;> simp [deleteIssuedIn, recordedIn, isDeleteEvent]

/-- C9: the wildcard pattern resolves against the three existing namespaces to
exactly the two matching ones, each once, and not the non-matching one. -/
theorem wildcard_app_star_resolves_exactly :
    resolveWildcardNamespaces "app-*" ["app-dev", "app-prod", "infra"] =
      ["app-dev", "app-prod"] := by decide

/-- Helper: when no cluster namespace matches any pattern, the collection loop
leaves its accumulator untouched. -/
theorem resolve_foldl_of_no_match (namespacesInput : String) (cluster : List String)
    (hnomatch : ∀ nsName ∈ cluster,
      (resolvePatterns namespacesInput).any
        (fun pattern => decide (filepathMatch pattern nsName.data = some true)) = false) :
    ∀ acc : List String,
      cluster.foldl
        (fun resolved nsName =>
          if (resolvePatterns namespacesInput).any
              (fun pattern => decide (filepathMatch pattern nsName.data = some true)) then
            if nsName ∈ resolved then resolved else resolved ++ [nsName]
          else resolved)
        acc = acc := by
  induction cluster with
  | nil => intro acc; rfl
  | cons nsName rest ih =>
    intro acc
    have hhead := hnomatch nsName (List.mem_cons_self nsName rest)
    have htail : ∀ n2 ∈ rest, (resolvePatterns namespacesInput).any
        (fun pattern => decide (filepathMatch pattern n2.data = some true)) = false :=
      fun n2 hmem => hnomatch n2 (List.mem_cons_of_mem nsName hmem)
    simp only [List.foldl_cons, hhead]
    simpa using ih htail acc

/-- C10: an input whose patterns contain a wildcard but match no existing
namespace resolves to the empty list, and the watch loop replaces an empty
namespace list with the all-namespaces sentinel, so such an input ends up
watching every namespace, like an empty input. -/
theorem unmatched_wildcard_resolves_empty_and_watches_all (namespacesInput : String)
    (cluster : List String)
    (hstar : (resolvePatterns namespacesInput).any containsStar = true)
    (hnomatch : ∀ nsName ∈ cluster,
      (resolvePatterns namespacesInput).any
        (fun pattern => decide (filepathMatch pattern nsName.data = some true)) = false) :
    resolveWildcardNamespaces namespacesInput cluster = []
    ∧ watchNamespaces (resolveWildcardNamespaces namespacesInput cluster) = [NamespaceAll] := by
  have hne : ¬namespacesInput.data = [] := by
    intro h0
    rw [show resolvePatterns namespacesInput = [[]] by
      simp [resolvePatterns, h0, splitOnComma, trimSpace]] at hstar
    simp [containsStar] at hstar
  have hres : resolveWildcardNamespaces namespacesInput cluster = [] := by
    unfold resolveWildcardNamespaces
    rw [if_neg hne, if_neg (by simp [hstar])]
    exact resolve_foldl_of_no_match namespacesInput cluster hnomatch []
  exact ⟨hres, by rw [hres]; rfl⟩

/-- Witness for C10: the wildcard `app-*` against a cluster whose only
namespace is `infra` resolves to nothing and so the sentinel is watched. -/
theorem unmatched_wildcard_resolves_empty_and_watches_all_witness :
    resolveWildcardNamespaces "app-*" ["infra"] = []
    ∧ watchNamespaces (resolveWildcardNamespaces "app-*" ["infra"]) = [NamespaceAll] :=
  unmatched_wildcard_resolves_empty_and_watches_all "app-*" ["infra"] (by decide) (by decide)

/-- C1 fails on this code: the `HealedPods` map is guarded by no mutex, so the
cooldown read and the heal write of two concurrent `checkAndHealPod`
invocations for the same Pod key interleave freely.  Under the interleaving
read-read-write-write from an empty ledger, after both reads and before any
write both callers have observed skip = false (`checked false` after the
two-step prefix, with the store still empty), and both then proceed to
remediate and write — two concurrent remediations for one Pod identity within
one cooldown window, which the claimed atomic check-and-set rules out. -/
theorem unsynchronized_cooldown_check_and_set_race :
    (runRace [false, true] ⟨[], CallerPhase.start, CallerPhase.start⟩ "ns/api-1" 0 600).store = []
    ∧ (runRace [false, true] ⟨[], CallerPhase.start, CallerPhase.start⟩
        "ns/api-1" 0 600).caller0 = CallerPhase.checked false
    ∧ (runRace [false, true] ⟨[], CallerPhase.start, CallerPhase.start⟩
        "ns/api-1" 0 600).caller1 = CallerPhase.checked false
    ∧ (runRace [false, true, false, true] ⟨[], CallerPhase.start, CallerPhase.start⟩
        "ns/api-1" 0 600).caller0 = CallerPhase.done false
    ∧ (runRace [false, true, false, true] ⟨[], CallerPhase.start, CallerPhase.start⟩
        "ns/api-1" 0 600).caller1 = CallerPhase.done false := by decide
